import Mathlib

/-!
Verification of the annotation/measurement geometry engine of the
ultrasound viewer (`src/annotations.py`, `src/fast_annotations.py`).

The Python classes are shallowly embedded:
* `CoordinateConverter` (`fast_annotations.py`) becomes a record of its
  fields over `ℤ`/`ℚ` (exact arithmetic in place of Python floats), with
  its mutators as state-passing functions.
* `AnnotationOverlay` (`annotations.py`) becomes `OverlayState`, its Qt
  mouse handlers become functions `OverlayState → … → OverlayState × List OutEvent`
  where the returned list records the Qt signals emitted, in order.
* The per-shape measurement mathematics is embedded over `ℝ`
  (`math.sqrt` ↦ `Real.sqrt`, `math.pi` ↦ `Real.pi`).
* The class-level id counters of `Annotation` and `Measure` become an
  explicit two-counter state.
-/

namespace UltrasoundApp

/-! ## CoordinateConverter (`src/fast_annotations.py`)

Fields are kept with the Python names; `image_width`, `image_height`,
`widget_width`, `widget_height` are Python ints (`ℤ`), the derived
transform is exact rational arithmetic.  `scale`, `offset_x`, `offset_y`
embed the private attributes `_scale`, `_offset_x`, `_offset_y`. -/

structure CoordinateConverter where
  image_width : ℤ
  image_height : ℤ
  widget_width : ℤ
  widget_height : ℤ
  pixel_spacing : ℚ
  scale : ℚ
  offset_x : ℚ
  offset_y : ℚ
  deriving DecidableEq, Repr

namespace CoordinateConverter

/-- `CoordinateConverter._update_transform`: recompute scale/offset from the
image and widget dimensions; with a non-positive dimension it returns early,
leaving the previously stored transform in place. -/
def update_transform (c : CoordinateConverter) : CoordinateConverter :=
  if c.image_width ≤ 0 ∨ c.image_height ≤ 0 then c
  else if c.widget_width ≤ 0 ∨ c.widget_height ≤ 0 then c
  else
    let scale_x : ℚ := (c.widget_width : ℚ) / (c.image_width : ℚ)
    let scale_y : ℚ := (c.widget_height : ℚ) / (c.image_height : ℚ)
    let s := min scale_x scale_y
    let scaled_width := (c.image_width : ℚ) * s
    let scaled_height := (c.image_height : ℚ) * s
    { c with
      scale := s
      offset_x := ((c.widget_width : ℚ) - scaled_width) / 2
      offset_y := ((c.widget_height : ℚ) - scaled_height) / 2 }

/-- `CoordinateConverter.__init__`: widget size starts at the image size,
the transform starts at scale 1 / offset 0 and is then updated; a
non-positive (or zero, i.e. falsy) pixel spacing is replaced by 1. -/
def init (image_width image_height : ℤ) (pixel_spacing : ℚ) : CoordinateConverter :=
  update_transform
    { image_width := image_width
      image_height := image_height
      widget_width := image_width
      widget_height := image_height
      pixel_spacing := if 0 < pixel_spacing then pixel_spacing else 1
      scale := 1
      offset_x := 0
      offset_y := 0 }

/-- `CoordinateConverter.set_image_size`. -/
def set_image_size (c : CoordinateConverter) (width height : ℤ) : CoordinateConverter :=
  update_transform { c with image_width := width, image_height := height }

/-- `CoordinateConverter.set_widget_size`. -/
def set_widget_size (c : CoordinateConverter) (width height : ℤ) : CoordinateConverter :=
  update_transform { c with widget_width := width, widget_height := height }

/-- `CoordinateConverter.set_pixel_spacing`. -/
def set_pixel_spacing (c : CoordinateConverter) (spacing : ℚ) : CoordinateConverter :=
  { c with pixel_spacing := if 0 < spacing then spacing else 1 }

/-- `CoordinateConverter.widget_to_image`: identity when the stored scale
is zero, otherwise remove the centering offset and the scale. -/
def widget_to_image (c : CoordinateConverter) (wx wy : ℚ) : ℚ × ℚ :=
  if c.scale = 0 then (wx, wy)
  else ((wx - c.offset_x) / c.scale, (wy - c.offset_y) / c.scale)

/-- The inverse image→screen affine map used by
`AnnotationOverlay.paintEvent`: `widget_x = img_x * scale + offset_x`. -/
def image_to_screen (c : CoordinateConverter) (p : ℚ × ℚ) : ℚ × ℚ :=
  (p.1 * c.scale + c.offset_x, p.2 * c.scale + c.offset_y)

/-- The three converter mutators, as a reachability alphabet. -/
inductive Mutator where
  | setImageSize (width height : ℤ)
  | setWidgetSize (width height : ℤ)
  | setPixelSpacing (spacing : ℚ)
  deriving DecidableEq, Repr

/-- Apply one mutator. -/
def applyMutator (c : CoordinateConverter) : Mutator → CoordinateConverter
  | .setImageSize w h => c.set_image_size w h
  | .setWidgetSize w h => c.set_widget_size w h
  | .setPixelSpacing s => c.set_pixel_spacing s

/-- Apply a sequence of mutators. -/
def runMutators (c : CoordinateConverter) : List Mutator → CoordinateConverter
  | [] => c
  | m :: ms => runMutators (applyMutator c m) ms

end CoordinateConverter

end UltrasoundApp

namespace UltrasoundApp

open CoordinateConverter

/-- After `_update_transform` the scale is positive provided it was positive
before (either the guard keeps the old positive scale, or a fresh positive
scale is computed from positive dimensions). -/
theorem update_transform_scale_pos (c : CoordinateConverter) (h : 0 < c.scale) :
    0 < c.update_transform.scale := by
  unfold update_transform
  split
  · exact h
  · split
    · exact h
    · rename_i h1 h2
      push_neg at h1 h2
      have hiw : (0 : ℚ) < (c.image_width : ℚ) := by exact_mod_cast h1.1
      have hih : (0 : ℚ) < (c.image_height : ℚ) := by exact_mod_cast h1.2
      have hww : (0 : ℚ) < (c.widget_width : ℚ) := by exact_mod_cast h2.1
      have hwh : (0 : ℚ) < (c.widget_height : ℚ) := by exact_mod_cast h2.2
      simp only
      exact lt_min (div_pos hww hiw) (div_pos hwh hih)

/-- Each single mutator preserves positivity of the scale. -/
theorem applyMutator_scale_pos (c : CoordinateConverter) (m : Mutator) (h : 0 < c.scale) :
    0 < (c.applyMutator m).scale := by
  cases m with
  | setImageSize w h' => exact update_transform_scale_pos _ h
  | setWidgetSize w h' => exact update_transform_scale_pos _ h
  | setPixelSpacing s => exact h

/-- Any mutator sequence preserves positivity of the scale. -/
theorem runMutators_scale_pos_of (ms : List Mutator) :
    ∀ c : CoordinateConverter, 0 < c.scale → 0 < (c.runMutators ms).scale := by
  induction ms with
  | nil => intro c h; exact h
  | cons m ms ih => intro c h; exact ih _ (applyMutator_scale_pos c m h)

/-- The scale of every converter reachable through the constructor and the
three mutators is positive. -/
theorem runMutators_scale_pos (iw ih : ℤ) (ps : ℚ) (ms : List Mutator) :
    0 < ((CoordinateConverter.init iw ih ps).runMutators ms).scale := by
  refine runMutators_scale_pos_of ms _ ?_
  apply update_transform_scale_pos
  norm_num

/-- `_update_transform` leaves the stored transform untouched when a
dimension is non-positive. -/
theorem update_transform_of_degenerate (c : CoordinateConverter)
    (h : c.image_width ≤ 0 ∨ c.image_height ≤ 0 ∨ c.widget_width ≤ 0 ∨ c.widget_height ≤ 0) :
    c.update_transform = c := by
  unfold update_transform
  by_cases h1 : c.image_width ≤ 0 ∨ c.image_height ≤ 0
  · rw [if_pos h1]
  · rw [if_neg h1]
    have h2 : c.widget_width ≤ 0 ∨ c.widget_height ≤ 0 := by tauto
    rw [if_pos h2]

/-- Concrete evaluation: a converter for a 100×100 image starts with the
identity transform. -/
theorem init_100_eval :
    CoordinateConverter.init 100 100 1 = ⟨100, 100, 100, 100, 1, 1, 0, 0⟩ := by
  unfold CoordinateConverter.init CoordinateConverter.update_transform
  norm_num

/-- Concrete evaluation: resizing the widget to 200×200 gives scale 2 and
zero offsets. -/
theorem resized_eval :
    (CoordinateConverter.init 100 100 1).set_widget_size 200 200 =
      ⟨100, 100, 200, 200, 1, 2, 0, 0⟩ := by
  rw [CoordinateConverter.set_widget_size, init_100_eval]
  unfold CoordinateConverter.update_transform
  norm_num

/-- Concrete evaluation: a subsequent degenerate image size keeps the
previously computed scale-2 transform. -/
theorem degenerate_eval :
    ((CoordinateConverter.init 100 100 1).set_widget_size 200 200).set_image_size 0 5 =
      ⟨0, 5, 200, 200, 1, 2, 0, 0⟩ := by
  rw [CoordinateConverter.set_image_size, resized_eval]
  exact update_transform_of_degenerate _ (Or.inl (by norm_num))

/-- C4 is false as stated: after setting a non-positive image size the
previously computed (non-identity) transform stays in effect, so
`widget_to_image` does not return its input unchanged.  Concretely: a
converter built for a 100×100 image, resized to a 200×200 widget
(scale 2, offsets 0) and then given image size 0×5 maps the widget point
(10,10) to (5,5), not to itself. -/
theorem degenerate_dims_not_identity :
    (((CoordinateConverter.init 100 100 1).set_widget_size 200 200).set_image_size 0 5).image_width ≤ 0 ∧
    (((CoordinateConverter.init 100 100 1).set_widget_size 200 200).set_image_size 0 5).widget_to_image 10 10 ≠ (10, 10) := by
  rw [degenerate_eval]
  unfold CoordinateConverter.widget_to_image
  norm_num

/-- `_update_transform` never touches the pixel spacing. -/
theorem update_transform_pixel_spacing (c : CoordinateConverter) :
    c.update_transform.pixel_spacing = c.pixel_spacing := by
  unfold update_transform
  split
  · rfl
  · split <;> rfl

/-- Each single mutator preserves positivity of the pixel spacing. -/
theorem applyMutator_spacing_pos (c : CoordinateConverter) (m : Mutator)
    (h : 0 < c.pixel_spacing) : 0 < (c.applyMutator m).pixel_spacing := by
  cases m with
  | setImageSize w h' =>
      simp only [applyMutator, set_image_size, update_transform_pixel_spacing]
      exact h
  | setWidgetSize w h' =>
      simp only [applyMutator, set_widget_size, update_transform_pixel_spacing]
      exact h
  | setPixelSpacing s =>
      simp only [applyMutator, set_pixel_spacing]
      by_cases hs : 0 < s
      · simp [hs]
      · simp [hs]

/-- Any mutator sequence preserves positivity of the pixel spacing. -/
theorem runMutators_spacing_pos_of (ms : List Mutator) :
    ∀ c : CoordinateConverter, 0 < c.pixel_spacing → 0 < (c.runMutators ms).pixel_spacing := by
  induction ms with
  | nil => intro c h; exact h
  | cons m ms ih => intro c h; exact ih _ (applyMutator_spacing_pos c m h)

/-- C4 (amended): the code's degenerate guards.  (i) `widget_to_image`
returns its input unchanged exactly in the stored-scale-is-zero guard;
(ii) supplying a non-positive image or widget dimension skips the
transform update and keeps the previously stored scale and offsets (it
does not switch to the identity map); (iii) every converter state
reachable from the constructor through the mutators has a strictly
positive stored scale and pixel spacing, so no conversion path
(`widget_to_image` dividing by `_scale`, `world_to_pixel` dividing by
`pixel_spacing`) ever divides by zero, and the identity guard of (i) never
fires on a reachable state. -/
theorem degenerate_guard_behavior :
    (∀ (c : CoordinateConverter) (wx wy : ℚ),
        c.scale = 0 → c.widget_to_image wx wy = (wx, wy)) ∧
    (∀ (c : CoordinateConverter) (w h : ℤ), w ≤ 0 ∨ h ≤ 0 →
        (c.set_image_size w h).scale = c.scale ∧
        (c.set_image_size w h).offset_x = c.offset_x ∧
        (c.set_image_size w h).offset_y = c.offset_y) ∧
    (∀ (c : CoordinateConverter) (w h : ℤ), w ≤ 0 ∨ h ≤ 0 →
        (c.set_widget_size w h).scale = c.scale ∧
        (c.set_widget_size w h).offset_x = c.offset_x ∧
        (c.set_widget_size w h).offset_y = c.offset_y) ∧
    (∀ (iw ih : ℤ) (ps : ℚ) (ms : List Mutator),
        0 < ((CoordinateConverter.init iw ih ps).runMutators ms).scale ∧
        0 < ((CoordinateConverter.init iw ih ps).runMutators ms).pixel_spacing) := by
  refine ⟨?_, ?_, ?_, ?_⟩
  · intro c wx wy h
    unfold widget_to_image
    rw [if_pos h]
  · intro c w h hwh
    have : (c.set_image_size w h) = { c with image_width := w, image_height := h } := by
      unfold set_image_size
      exact update_transform_of_degenerate _ (by rcases hwh with h' | h' <;> simp [h'])
    rw [this]
    exact ⟨rfl, rfl, rfl⟩
  · intro c w h hwh
    have : (c.set_widget_size w h) = { c with widget_width := w, widget_height := h } := by
      unfold set_widget_size
      exact update_transform_of_degenerate _ (by rcases hwh with h' | h' <;> simp [h'])
    rw [this]
    exact ⟨rfl, rfl, rfl⟩
  · intro iw ih ps ms
    refine ⟨runMutators_scale_pos iw ih ps ms, ?_⟩
    refine runMutators_spacing_pos_of ms _ ?_
    unfold CoordinateConverter.init
    rw [update_transform_pixel_spacing]
    dsimp only
    split
    · assumption
    · norm_num

/-- C4 witness: the guards evaluated at concrete inputs. -/
theorem degenerate_guard_behavior_witness :
    (⟨100, 100, 200, 200, 1, 0, 3, 4⟩ : CoordinateConverter).widget_to_image 7 9 = (7, 9) ∧
    ((⟨100, 100, 200, 200, 1, 2, 0, 0⟩ : CoordinateConverter).set_image_size (-1) 5).scale = 2 ∧
    ((⟨100, 100, 200, 200, 1, 2, 0, 0⟩ : CoordinateConverter).set_widget_size 0 5).scale = 2 ∧
    0 < ((CoordinateConverter.init 100 100 1).runMutators [.setWidgetSize 200 200]).scale := by
  refine ⟨degenerate_guard_behavior.1 _ 7 9 rfl,
          (degenerate_guard_behavior.2.1 _ (-1) 5 (Or.inl (by norm_num))).1,
          (degenerate_guard_behavior.2.2.1 _ 0 5 (Or.inl (by norm_num))).1,
          (degenerate_guard_behavior.2.2.2 100 100 1 [.setWidgetSize 200 200]).1⟩

/-- C5: round trip in baseline mode.  For every converter state with a
positive stored scale, converting a widget point to image coordinates with
`widget_to_image` and mapping back with the inverse affine map used by
`paintEvent` (`img * scale + offset`) returns the original point exactly
(exact rational arithmetic). -/
theorem baseline_round_trip (c : CoordinateConverter) (h : 0 < c.scale) (wx wy : ℚ) :
    c.image_to_screen (c.widget_to_image wx wy) = (wx, wy) := by
  have hne : c.scale ≠ 0 := ne_of_gt h
  unfold widget_to_image image_to_screen
  rw [if_neg hne]
  simp only
  rw [div_mul_cancel₀ _ hne, div_mul_cancel₀ _ hne, sub_add_cancel, sub_add_cancel]

/-- C5 witness: the round trip at a concrete converter state (100×100
image in a 200×200 widget, scale 2) and the widget point (3, 7). -/
theorem baseline_round_trip_witness :
    0 < ((CoordinateConverter.init 100 100 1).set_widget_size 200 200).scale ∧
    ((CoordinateConverter.init 100 100 1).set_widget_size 200 200).image_to_screen
      (((CoordinateConverter.init 100 100 1).set_widget_size 200 200).widget_to_image 3 7) = (3, 7) :=
  ⟨by rw [resized_eval]; norm_num,
   baseline_round_trip _ (by rw [resized_eval]; norm_num) 3 7⟩


/-! ## Shape measurement geometry (`src/annotations.py`)

The per-shape measurement mathematics, over `ℝ` (`math.sqrt` ↦
`Real.sqrt`, `math.pi` ↦ `Real.pi`).  List indexing `points[i]` becomes
`points.getD i (0, 0)`; every access in the source is guarded to be in
bounds, so the default is never read. -/

noncomputable section

/-- `math.sqrt(dx*dx + dy*dy)` for `dx = b.x - a.x`, `dy = b.y - a.y`:
the length of the segment from `a` to `b`. -/
def distPx (a b : ℝ × ℝ) : ℝ :=
  Real.sqrt ((b.1 - a.1) ^ 2 + (b.2 - a.2) ^ 2)

/-- `PolygonAnnotation._calculate_perimeter`: consecutive edges via
`for i in range(len(points) - 1)`, plus the closing edge when the polygon
is closed and has at least 3 points. -/
def polygon_perimeter (closed : Bool) (points : List (ℝ × ℝ)) : ℝ :=
  if points.length < 2 then 0
  else
    let base := (List.range (points.length - 1)).foldl
      (fun acc i => acc + distPx (points.getD i (0, 0)) (points.getD (i + 1) (0, 0))) 0
    if closed ∧ 3 ≤ points.length then
      base + distPx (points.getLastD (0, 0)) (points.headD (0, 0))
    else base

/-- `PolygonAnnotation._calculate_area` = `AreaMeasure._calculate_area`
(identical bodies): shoelace loop `for i in range(n)` with `j = (i+1) % n`,
accumulating `x_i*y_j - x_j*y_i`, then `abs(area) / 2`; `0` below 3 points. -/
def shoelace_area (points : List (ℝ × ℝ)) : ℝ :=
  if points.length < 3 then 0
  else
    |(List.range points.length).foldl
        (fun acc i =>
          acc + (points.getD i (0, 0)).1 * (points.getD ((i + 1) % points.length) (0, 0)).2
              - (points.getD ((i + 1) % points.length) (0, 0)).1 * (points.getD i (0, 0)).2)
        0| / 2

/-- `AreaMeasure._calculate_perimeter`: cyclic loop `for i in range(n)`
with `j = (i+1) % n`, summing the edge lengths (the closing edge is always
included once the list has ≥ 2 points). -/
def area_perimeter (points : List (ℝ × ℝ)) : ℝ :=
  if points.length < 2 then 0
  else
    (List.range points.length).foldl
      (fun acc i =>
        acc + distPx (points.getD i (0, 0)) (points.getD ((i + 1) % points.length) (0, 0)))
      0

/-- Spec-side reading of "sum of consecutive edge lengths". -/
def consecutiveEdgeSum (points : List (ℝ × ℝ)) : ℝ :=
  ((points.zip points.tail).map fun pq => distPx pq.1 pq.2).sum

/-- Spec-side reading of "the closing edge from the last point back to the
first". -/
def closingEdge (points : List (ℝ × ℝ)) : ℝ :=
  distPx (points.getLastD (0, 0)) (points.headD (0, 0))

/-- Spec-side reading of the claimed Shoelace sum
`Σ (x_i * y_{i+1} - x_{i+1} * y_i)` over indices mod `N`. -/
def shoelaceSumSpec (points : List (ℝ × ℝ)) : ℝ :=
  ∑ i ∈ Finset.range points.length,
    ((points.getD i (0, 0)).1 * (points.getD ((i + 1) % points.length) (0, 0)).2
      - (points.getD ((i + 1) % points.length) (0, 0)).1 * (points.getD i (0, 0)).2)

/-- `EllipseMeasure._get_axes`: `(0,0)` below 2 points, else
`(|px - cx|, |py - cy|)` for center `points[0]` and corner `points[1]`. -/
def ellipse_axes (points : List (ℝ × ℝ)) : ℝ × ℝ :=
  match points with
  | c :: p :: _ => (|p.1 - c.1|, |p.2 - c.2|)
  | _ => (0, 0)

/-- `EllipseMeasure._calculate_area`: `π * a * b`. -/
def ellipse_area (points : List (ℝ × ℝ)) : ℝ :=
  Real.pi * (ellipse_axes points).1 * (ellipse_axes points).2

/-- `EllipseMeasure._calculate_perimeter`: Ramanujan's approximation with
the code's two guards (`a == 0 and b == 0` early return, and the
`(a + b) != 0` guard on `h`). -/
def ellipse_perimeter (points : List (ℝ × ℝ)) : ℝ :=
  let a := (ellipse_axes points).1
  let b := (ellipse_axes points).2
  if a = 0 ∧ b = 0 then 0
  else
    let h := if a + b ≠ 0 then (a - b) ^ 2 / (a + b) ^ 2 else 0
    Real.pi * (a + b) * (1 + (3 * h) / (10 + Real.sqrt (4 - 3 * h)))

/-- The numeric values reported as "Major Axis" and "Minor Axis" by
`EllipseMeasure.get_measurements`: `2 * a` and `2 * b`. -/
def ellipse_major_minor (points : List (ℝ × ℝ)) : ℝ × ℝ :=
  (2 * (ellipse_axes points).1, 2 * (ellipse_axes points).2)

/-- Spec-side reading of the claimed Ramanujan perimeter, with
`h = ((a - b)/(a + b))²` taken as `0` when `a + b = 0`. -/
def ramanujanPerimeter (a b : ℝ) : ℝ :=
  let h := if a + b = 0 then 0 else ((a - b) / (a + b)) ^ 2
  Real.pi * (a + b) * (1 + (3 * h) / (10 + Real.sqrt (4 - 3 * h)))

end

/-- Folding `acc + f i` over `List.range n` is the sum of `f` over the range. -/
theorem foldl_range_add (f : ℕ → ℝ) :
    ∀ (n : ℕ) (a : ℝ),
      (List.range n).foldl (fun acc i => acc + f i) a = a + ∑ i ∈ Finset.range n, f i := by
  intro n
  induction n with
  | zero => intro a; simp
  | succ n ih =>
      intro a
      rw [List.range_succ, List.foldl_append, ih, Finset.sum_range_succ]
      simp [List.foldl]
      ring

/-- Folding `acc + f i - g i` over `List.range n` is the sum of `f - g`. -/
theorem foldl_range_add_sub (f g : ℕ → ℝ) :
    ∀ (n : ℕ) (a : ℝ),
      (List.range n).foldl (fun acc i => acc + f i - g i) a
        = a + ∑ i ∈ Finset.range n, (f i - g i) := by
  intro n
  induction n with
  | zero => intro a; simp
  | succ n ih =>
      intro a
      rw [List.range_succ, List.foldl_append, ih, Finset.sum_range_succ]
      simp [List.foldl]
      ring

/-- The indexed sum over consecutive pairs equals the zip-with-tail sum. -/
theorem sum_range_consecutive (points : List (ℝ × ℝ)) :
    ∑ i ∈ Finset.range (points.length - 1),
        distPx (points.getD i (0, 0)) (points.getD (i + 1) (0, 0))
      = consecutiveEdgeSum points := by
  induction points with
  | nil => simp [consecutiveEdgeSum]
  | cons p rest ih =>
      cases rest with
      | nil => simp [consecutiveEdgeSum]
      | cons q rest' =>
          have hlen : (p :: q :: rest').length - 1 = rest'.length + 1 := by
            simp
          rw [hlen, Finset.sum_range_succ' _ rest'.length]
          have hlen2 : (q :: rest').length - 1 = rest'.length := by simp
          rw [hlen2] at ih
          simp only [List.getD_cons_succ] at *
          rw [ih]
          simp only [consecutiveEdgeSum, List.zip_cons_cons, List.tail_cons, List.map_cons,
            List.sum_cons, List.getD_cons_zero]
          ring

/-- `getD 0` is the head. -/
theorem getD_zero_headD (l : List (ℝ × ℝ)) : l.getD 0 (0, 0) = l.headD (0, 0) := by
  cases l <;> simp

/-- `getD (length - 1)` is the last element. -/
theorem getD_length_sub_one (l : List (ℝ × ℝ)) :
    l.getD (l.length - 1) (0, 0) = l.getLastD (0, 0) := by
  rw [List.getD_eq_getElem?_getD, List.getLastD_eq_getLast?, List.getLast?_eq_getElem?]

/-- The cyclic edge-length sum of `AreaMeasure._calculate_perimeter` is the
consecutive-edge sum plus the closing edge, for any list with ≥ 2 points. -/
theorem area_perimeter_eq (points : List (ℝ × ℝ)) (h2 : 2 ≤ points.length) :
    area_perimeter points = consecutiveEdgeSum points + closingEdge points := by
  unfold area_perimeter
  rw [if_neg (by omega)]
  rw [foldl_range_add
    (fun i => distPx (points.getD i (0, 0)) (points.getD ((i + 1) % points.length) (0, 0))),
    zero_add]
  obtain ⟨n, hn⟩ : ∃ n, points.length = n + 1 := ⟨points.length - 1, by omega⟩
  have hc := sum_range_consecutive points
  rw [hn] at hc
  simp only [Nat.add_sub_cancel] at hc
  have hlast := getD_length_sub_one points
  rw [hn] at hlast
  simp only [Nat.add_sub_cancel] at hlast
  rw [hn, Finset.sum_range_succ]
  rw [Finset.sum_congr rfl (fun i hi => by
    rw [Nat.mod_eq_of_lt (by simp only [Finset.mem_range] at hi; omega)])]
  rw [hc, Nat.mod_self, hlast, getD_zero_headD]
  rfl

/-- `PolygonAnnotation._calculate_perimeter` on a list with ≥ 3 points is
the consecutive-edge sum, plus the closing edge exactly when `closed`. -/
theorem polygon_perimeter_eq (closed : Bool) (points : List (ℝ × ℝ))
    (h3 : 3 ≤ points.length) :
    polygon_perimeter closed points
      = consecutiveEdgeSum points + (if closed then closingEdge points else 0) := by
  unfold polygon_perimeter
  rw [if_neg (by omega)]
  simp only
  rw [foldl_range_add
    (fun i => distPx (points.getD i (0, 0)) (points.getD (i + 1) (0, 0))),
    zero_add, sum_range_consecutive]
  cases closed with
  | true =>
      rw [if_pos ⟨rfl, h3⟩]
      simp [closingEdge]
  | false =>
      rw [if_neg (by simp)]
      simp

/-- `PolygonAnnotation._calculate_perimeter` with `closed = False` is the
consecutive-edge sum, for every point list. -/
theorem polygon_perimeter_open (points : List (ℝ × ℝ)) :
    polygon_perimeter false points = consecutiveEdgeSum points := by
  unfold polygon_perimeter
  by_cases h2 : points.length < 2
  · rw [if_pos h2]
    match points, h2 with
    | [], _ => simp [consecutiveEdgeSum]
    | [p], _ => simp [consecutiveEdgeSum]
  · rw [if_neg h2]
    simp only
    rw [foldl_range_add
      (fun i => distPx (points.getD i (0, 0)) (points.getD (i + 1) (0, 0))),
      zero_add, sum_range_consecutive]
    rw [if_neg (by simp)]

/-- The shoelace loop equals the claimed indexed Shoelace sum. -/
theorem shoelace_area_eq (points : List (ℝ × ℝ)) (h3 : 3 ≤ points.length) :
    shoelace_area points = |shoelaceSumSpec points| / 2 := by
  unfold shoelace_area shoelaceSumSpec
  rw [if_neg (by omega)]
  rw [foldl_range_add_sub
    (fun i => (points.getD i (0, 0)).1 * (points.getD ((i + 1) % points.length) (0, 0)).2)
    (fun i => (points.getD ((i + 1) % points.length) (0, 0)).1 * (points.getD i (0, 0)).2),
    zero_add]

/-- `√100 = 10`. -/
theorem sqrt_hundred : Real.sqrt 100 = 10 := by
  rw [show (100 : ℝ) = 10 ^ 2 by norm_num, Real.sqrt_sq (by norm_num : (0 : ℝ) ≤ 10)]

/-- The closed unit-free 10×10 square used by the spec's example. -/
def squareExample : List (ℝ × ℝ) := [(0, 0), (10, 0), (10, 10), (0, 10)]

/-- The square's perimeter evaluates to 40. -/
theorem square_perimeter_eval : polygon_perimeter true squareExample = 40 := by
  rw [polygon_perimeter_eq true squareExample (by norm_num [squareExample])]
  simp only [squareExample, consecutiveEdgeSum, closingEdge, List.tail_cons, List.zip_cons_cons,
    List.zip_nil_right, List.map_cons, List.map_nil, List.sum_cons, List.sum_nil, if_true,
    List.getLastD, List.headD, distPx]
  norm_num [sqrt_hundred]

/-- The square's area evaluates to 100. -/
theorem square_area_eval : shoelace_area squareExample = 100 := by
  rw [shoelace_area_eq squareExample (by norm_num [squareExample])]
  simp only [shoelaceSumSpec, squareExample]
  rw [show ([((0:ℝ),(0:ℝ)), (10, 0), (10, 10), (0, 10)]).length = 4 by rfl]
  rw [Finset.sum_range_succ, Finset.sum_range_succ, Finset.sum_range_succ,
    Finset.sum_range_succ, Finset.sum_range_zero]
  norm_num [List.getD]

/-- C6 is false as stated for a closed 2-point polygon: the code adds the
closing edge only when the polygon also has ≥ 3 points, so the closed
two-point polygon [(0,0),(1,0)] has code perimeter 1 while
"consecutive edges plus the closing edge whenever closed" gives 2. -/
theorem closed_two_point_polygon_counterexample :
    polygon_perimeter true [((0 : ℝ), (0 : ℝ)), (1, 0)] = 1 ∧
    consecutiveEdgeSum [((0 : ℝ), (0 : ℝ)), (1, 0)]
      + closingEdge [((0 : ℝ), (0 : ℝ)), (1, 0)] = 2 ∧
    (1 : ℝ) ≠ 2 := by
  refine ⟨?_, ?_, by norm_num⟩
  · unfold polygon_perimeter
    rw [if_neg (by norm_num)]
    simp only
    rw [if_neg (by norm_num)]
    have : List.range ((([((0 : ℝ), (0 : ℝ)), (1, 0)]).length) - 1) = [0] := by rfl
    rw [this]
    simp [List.getD, distPx, Real.sqrt_one]
  · simp only [consecutiveEdgeSum, closingEdge, List.tail_cons, List.zip_cons_cons,
      List.zip_nil_right, List.map_cons, List.map_nil, List.sum_cons, List.sum_nil,
      List.getLastD, List.headD, distPx]
    norm_num [Real.sqrt_one]

/-- C6 (amended): for a Polygon shape with ≥ 3 points the perimeter is the
sum of consecutive edge lengths plus the closing edge exactly when
`closed` (an unclosed polygon of any size gets no closing edge); an Area
measurement's perimeter always includes the cyclic closing edge once it
has ≥ 2 points; the area is 0 below 3 points and |Σ(xᵢ·yᵢ₊₁ − xᵢ₊₁·yᵢ)|/2
(indices mod N) otherwise; the closed square [(0,0),(10,0),(10,10),(0,10)]
has perimeter 40 and area 100. -/
theorem polygon_area_perimeter_spec :
    (∀ (closed : Bool) (points : List (ℝ × ℝ)), 3 ≤ points.length →
        polygon_perimeter closed points
          = consecutiveEdgeSum points + (if closed then closingEdge points else 0)) ∧
    (∀ points : List (ℝ × ℝ), polygon_perimeter false points = consecutiveEdgeSum points) ∧
    (∀ points : List (ℝ × ℝ), 2 ≤ points.length →
        area_perimeter points = consecutiveEdgeSum points + closingEdge points) ∧
    (∀ points : List (ℝ × ℝ), points.length < 3 → shoelace_area points = 0) ∧
    (∀ points : List (ℝ × ℝ), 3 ≤ points.length →
        shoelace_area points = |shoelaceSumSpec points| / 2) ∧
    (polygon_perimeter true squareExample = 40 ∧ shoelace_area squareExample = 100) :=
  ⟨polygon_perimeter_eq, polygon_perimeter_open, area_perimeter_eq,
   fun points h => by unfold shoelace_area; rw [if_pos h],
   shoelace_area_eq, square_perimeter_eval, square_area_eval⟩

/-- C6 witness: the hypotheses of `polygon_area_perimeter_spec`
discharged at the square example and at the segment [(0,0),(3,4)]. -/
theorem polygon_area_perimeter_spec_witness :
    (3 ≤ squareExample.length ∧
      polygon_perimeter true squareExample
        = consecutiveEdgeSum squareExample + (if true then closingEdge squareExample else 0)) ∧
    (2 ≤ ([((0 : ℝ), (0 : ℝ)), (3, 4)]).length ∧
      area_perimeter [((0 : ℝ), (0 : ℝ)), (3, 4)]
        = consecutiveEdgeSum [((0 : ℝ), (0 : ℝ)), (3, 4)]
          + closingEdge [((0 : ℝ), (0 : ℝ)), (3, 4)]) ∧
    (([((0 : ℝ), (0 : ℝ)), (3, 4)]).length < 3 ∧
      shoelace_area [((0 : ℝ), (0 : ℝ)), (3, 4)] = 0) ∧
    (3 ≤ squareExample.length ∧
      shoelace_area squareExample = |shoelaceSumSpec squareExample| / 2) :=
  ⟨⟨by norm_num [squareExample],
    polygon_area_perimeter_spec.1 true squareExample (by norm_num [squareExample])⟩,
   ⟨by norm_num,
    polygon_area_perimeter_spec.2.2.1 [((0 : ℝ), (0 : ℝ)), (3, 4)] (by norm_num)⟩,
   ⟨by norm_num,
    polygon_area_perimeter_spec.2.2.2.1 [((0 : ℝ), (0 : ℝ)), (3, 4)] (by norm_num)⟩,
   ⟨by norm_num [squareExample],
    polygon_area_perimeter_spec.2.2.2.2.1 squareExample (by norm_num [squareExample])⟩⟩

/-- Both semi-axes are absolute values, hence non-negative. -/
theorem ellipse_axes_nonneg (points : List (ℝ × ℝ)) :
    0 ≤ (ellipse_axes points).1 ∧ 0 ≤ (ellipse_axes points).2 := by
  unfold ellipse_axes
  match points with
  | [] => exact ⟨le_refl 0, le_refl 0⟩
  | [_] => exact ⟨le_refl 0, le_refl 0⟩
  | c :: p :: rest => exact ⟨abs_nonneg _, abs_nonneg _⟩

/-- The code's guarded Ramanujan perimeter coincides with the spec's
formula (`h = ((a-b)/(a+b))²`, taken as 0 when `a + b = 0`). -/
theorem ellipse_perimeter_eq (points : List (ℝ × ℝ)) :
    ellipse_perimeter points
      = ramanujanPerimeter (ellipse_axes points).1 (ellipse_axes points).2 := by
  have hab := ellipse_axes_nonneg points
  unfold ellipse_perimeter ramanujanPerimeter
  by_cases h0 : (ellipse_axes points).1 = 0 ∧ (ellipse_axes points).2 = 0
  · rw [if_pos h0]
    have hsum : (ellipse_axes points).1 + (ellipse_axes points).2 = 0 := by
      rw [h0.1, h0.2, add_zero]
    rw [if_pos hsum, hsum]
    ring
  · rw [if_neg h0]
    have hsum : (ellipse_axes points).1 + (ellipse_axes points).2 ≠ 0 := by
      intro hc
      exact h0 ((add_eq_zero_iff_of_nonneg hab.1 hab.2).1 hc)
    rw [if_pos hsum, if_neg hsum, div_pow]

/-- The concrete example ellipse from the spec: center (0,0), corner (10,5). -/
def ellipseExample : List (ℝ × ℝ) := [(0, 0), (10, 5)]

/-- Its semi-axes evaluate to (10, 5). -/
theorem ellipse_example_axes : ellipse_axes ellipseExample = (10, 5) := by
  unfold ellipseExample ellipse_axes
  norm_num

/-- C7: the ellipse measurements.  Semi-axes are `(|Δx|, |Δy|)` of corner
minus center; area is `π·a·b`; the perimeter is Ramanujan's approximation
`π(a+b)(1 + 3h/(10+√(4−3h)))` with `h = ((a−b)/(a+b))²` taken as 0 when
`a+b = 0` (so nothing divides by zero, and the value degenerates to 0);
the reported Major/Minor Axis values are `2a` and `2b`; for center (0,0)
and corner (10,5) the area is `50π` (within 1/100 of 157.08), the major
axis is 20 and the minor axis is 10. -/
theorem ellipse_measurements_spec :
    (∀ (c p : ℝ × ℝ) (rest : List (ℝ × ℝ)),
        ellipse_axes (c :: p :: rest) = (|p.1 - c.1|, |p.2 - c.2|)) ∧
    (∀ points : List (ℝ × ℝ),
        ellipse_area points = Real.pi * (ellipse_axes points).1 * (ellipse_axes points).2) ∧
    (∀ points : List (ℝ × ℝ),
        ellipse_perimeter points
          = ramanujanPerimeter (ellipse_axes points).1 (ellipse_axes points).2) ∧
    (∀ points : List (ℝ × ℝ),
        ellipse_major_minor points
          = (2 * (ellipse_axes points).1, 2 * (ellipse_axes points).2)) ∧
    (ellipse_area ellipseExample = 50 * Real.pi ∧
      |ellipse_area ellipseExample - 157.08| < 1 / 100 ∧
      ellipse_major_minor ellipseExample = (20, 10)) := by
  refine ⟨fun c p rest => rfl, fun points => rfl, ellipse_perimeter_eq, fun points => rfl,
    ?_, ?_, ?_⟩
  · rw [ellipse_area, ellipse_example_axes]
    ring
  · rw [ellipse_area, ellipse_example_axes]
    have h1 := Real.pi_gt_d6
    have h2 := Real.pi_lt_d6
    rw [abs_lt]
    constructor <;> nlinarith
  · rw [ellipse_major_minor, ellipse_example_axes]
    norm_num

/-! ## AnnotationOverlay interaction state machine (`src/annotations.py`)

Qt event positions are integer pixels (`QPoint`), so coordinates are `ℤ`.
Mouse handlers become pure functions returning the new state together
with the list of Qt signals emitted, in emission order.  Only left-button
press/release events reach the handler bodies (the code returns
immediately for other buttons), so `press`/`release` model left-button
events.  `self.update()` repaint requests carry no state and are dropped.
The field `cur_shape` embeds `self.current_annotation` and `annotationAdded`
embeds the `annotation_added` signal (the Python attribute names end in a
word that Lean reserves). -/

/-- A shape data object (`LineAnnotation` / `RectAnnotation` /
`PolygonAnnotation` / measurement classes): `kind` is the Python class
name `type(obj).__name__`; `closed` embeds the `closed` attribute (false
for classes that do not define one). -/
structure Shape (α : Type) where
  kind : String
  points : List (α × α)
  closed : Bool
  completed : Bool
  deriving DecidableEq, Repr

/-- A `Measure` data object: `measure_type` as set by the subclass
constructors (`'Distance'`, `'Angle'`, `'Area'`, `'Perimeter'`,
`'Ellipse'`). -/
structure MeasureObj where
  measure_type : String
  points : List (ℤ × ℤ)
  completed : Bool
  deriving DecidableEq, Repr

/-- The signals emitted by `AnnotationOverlay`. -/
inductive OutEvent where
  | previewUpdated (tool : String) (points : List (ℤ × ℤ))
  | previewCleared
  | shapeAdded (a : Shape ℤ)
  | measureAdded (m : MeasureObj)
  | wlChanged (delta_window delta_level : ℤ)
  deriving DecidableEq, Repr

/-- The mutable state of `AnnotationOverlay.__init__`:
`cur_shape` = `current_annotation`, `multi_points` = `_multi_points`,
`current_mouse_pos` = `_current_mouse_pos`, `wl_start_pos` = `_wl_start_pos`,
`shapes` = `annotations`. -/
structure OverlayState where
  current_tool : Option String
  is_drawing : Bool
  cur_shape : Option (Shape ℤ)
  current_measure : Option MeasureObj
  multi_points : List (ℤ × ℤ)
  current_mouse_pos : Option (ℤ × ℤ)
  wl_start_pos : Option (ℤ × ℤ)
  shapes : List (Shape ℤ)
  measurements : List MeasureObj
  deriving DecidableEq, Repr

/-- The initial overlay state built by `AnnotationOverlay.__init__`. -/
def initOverlay : OverlayState :=
  { current_tool := none
    is_drawing := false
    cur_shape := none
    current_measure := none
    multi_points := []
    current_mouse_pos := none
    wl_start_pos := none
    shapes := []
    measurements := [] }

/-- `AnnotationOverlay._is_measure_tool`: membership in the keys of
`MEASURE_TOOLS` (`None in MEASURE_TOOLS` is false). -/
def is_measure_tool : Option String → Bool
  | some t => t = "distance" || t = "angle" || t = "area" || t = "perimeter" || t = "ellipse"
  | none => false

/-- `AnnotationOverlay.set_tool`: unconditionally store the requested tool,
reset the multi-point state and emit `preview_cleared`. -/
def set_tool (s : OverlayState) (tool_type : Option String) :
    OverlayState × List OutEvent :=
  ({ s with
      current_tool := tool_type
      multi_points := []
      current_mouse_pos := none },
   [OutEvent.previewCleared])

/-- `Annotation.update_last_point` / `Measure.update_last_point`:
`points[-1] = (x, y)` when the list is non-empty. -/
def update_last_point (points : List (ℤ × ℤ)) (x y : ℤ) : List (ℤ × ℤ) :=
  if points = [] then points else points.dropLast ++ [(x, y)]

/-- `AnnotationOverlay._handle_measure_press` (only reached when the
current tool is a measure tool). -/
def handle_measure_press (s : OverlayState) (x y : ℤ) : OverlayState × List OutEvent :=
  let tool := s.current_tool.getD ""
  if tool = "distance" ∨ tool = "ellipse" then
    let m : MeasureObj :=
      { measure_type := if tool = "distance" then "Distance" else "Ellipse"
        points := [(x, y), (x, y)]
        completed := false }
    ({ s with is_drawing := true, current_measure := some m },
     [OutEvent.previewUpdated tool m.points])
  else if tool = "angle" then
    let mp := s.multi_points ++ [(x, y)]
    if 3 ≤ mp.length then
      let m : MeasureObj := { measure_type := "Angle", points := mp, completed := true }
      ({ s with multi_points := [], measurements := s.measurements ++ [m] },
       [OutEvent.previewUpdated "angle" mp, OutEvent.measureAdded m, OutEvent.previewCleared])
    else
      ({ s with multi_points := mp }, [OutEvent.previewUpdated "angle" mp])
  else if tool = "area" ∨ tool = "perimeter" then
    let mp := s.multi_points ++ [(x, y)]
    ({ s with multi_points := mp }, [OutEvent.previewUpdated tool mp])
  else (s, [])

/-- `AnnotationOverlay.mousePressEvent` (left button). -/
def mousePressEvent (s : OverlayState) (x y : ℤ) : OverlayState × List OutEvent :=
  if s.current_tool = some "wl" then
    ({ s with wl_start_pos := some (x, y) }, [])
  else if s.current_tool = none ∨ s.current_tool = some "" then (s, [])
  else if is_measure_tool s.current_tool then handle_measure_press s x y
  else if s.current_tool = some "polygon" then
    let mp := s.multi_points ++ [(x, y)]
    ({ s with multi_points := mp }, [OutEvent.previewUpdated "polygon" mp])
  else
    let newShape : Option (Shape ℤ) :=
      if s.current_tool = some "line" then
        some { kind := "LineAnnotation", points := [], closed := false, completed := false }
      else if s.current_tool = some "rectangle" then
        some { kind := "RectAnnotation", points := [], closed := false, completed := false }
      else s.cur_shape
    match newShape with
    | some a =>
        let a2 := { a with points := a.points ++ [(x, y), (x, y)] }
        ({ s with is_drawing := true, cur_shape := some a2 },
         [OutEvent.previewUpdated (s.current_tool.getD "") a2.points])
    | none => ({ s with is_drawing := true }, [])

/-- `AnnotationOverlay._handle_measure_double_click`. -/
def handle_measure_double_click (s : OverlayState) : OverlayState × List OutEvent :=
  let tool := s.current_tool.getD ""
  if tool = "area" ∧ 3 ≤ s.multi_points.length then
    let m : MeasureObj := { measure_type := "Area", points := s.multi_points, completed := true }
    ({ s with
        measurements := s.measurements ++ [m]
        multi_points := []
        current_mouse_pos := none },
     [OutEvent.measureAdded m, OutEvent.previewCleared])
  else if tool = "perimeter" ∧ 2 ≤ s.multi_points.length then
    let m : MeasureObj :=
      { measure_type := "Perimeter", points := s.multi_points, completed := true }
    ({ s with
        measurements := s.measurements ++ [m]
        multi_points := []
        current_mouse_pos := none },
     [OutEvent.measureAdded m, OutEvent.previewCleared])
  else (s, [])

/-- `AnnotationOverlay.mouseDoubleClickEvent`. -/
def mouseDoubleClickEvent (s : OverlayState) : OverlayState × List OutEvent :=
  if is_measure_tool s.current_tool then handle_measure_double_click s
  else if s.current_tool = some "polygon" ∧ 3 ≤ s.multi_points.length then
    let a : Shape ℤ :=
      { kind := "PolygonAnnotation", points := s.multi_points, closed := true, completed := true }
    ({ s with
        shapes := s.shapes ++ [a]
        multi_points := []
        current_mouse_pos := none },
     [OutEvent.shapeAdded a, OutEvent.previewCleared])
  else (s, [])

/-- `AnnotationOverlay.mouseMoveEvent`. -/
def mouseMoveEvent (s : OverlayState) (x y : ℤ) : OverlayState × List OutEvent :=
  if s.current_tool = some "wl" ∧ s.wl_start_pos ≠ none then
    let p := s.wl_start_pos.getD (0, 0)
    ({ s with wl_start_pos := some (x, y) },
     [OutEvent.wlChanged (x - p.1) (-(y - p.2))])
  else
    let s1 := { s with current_mouse_pos := some (x, y) }
    let tool := s1.current_tool.getD ""
    if is_measure_tool s1.current_tool ∧ (tool = "angle" ∨ tool = "area" ∨ tool = "perimeter")
        ∧ 1 ≤ s1.multi_points.length then
      (s1, [OutEvent.previewUpdated tool (s1.multi_points ++ [(x, y)])])
    else if is_measure_tool s1.current_tool ∧ (tool = "distance" ∨ tool = "ellipse")
        ∧ s1.is_drawing ∧ s1.current_measure ≠ none then
      let m := s1.current_measure.getD { measure_type := "", points := [], completed := false }
      let m2 := { m with points := update_last_point m.points x y }
      ({ s1 with current_measure := some m2 }, [OutEvent.previewUpdated tool m2.points])
    else if s1.current_tool = some "polygon" ∧ 1 ≤ s1.multi_points.length then
      (s1, [OutEvent.previewUpdated "polygon" (s1.multi_points ++ [(x, y)])])
    else if s1.is_drawing = false ∨ s1.cur_shape = none then (s1, [])
    else
      let a := s1.cur_shape.getD { kind := "", points := [], closed := false, completed := false }
      let a2 := { a with points := update_last_point a.points x y }
      ({ s1 with cur_shape := some a2 },
       [OutEvent.previewUpdated (s1.current_tool.getD "") a2.points])

/-- `AnnotationOverlay.mouseReleaseEvent` (left button; the release
position is unused by the code). -/
def mouseReleaseEvent (s : OverlayState) : OverlayState × List OutEvent :=
  if s.current_tool = some "wl" then ({ s with wl_start_pos := none }, [])
  else if is_measure_tool s.current_tool then
    let tool := s.current_tool.getD ""
    if tool = "angle" ∨ tool = "area" ∨ tool = "perimeter" then (s, [])
    else if (tool = "distance" ∨ tool = "ellipse") ∧ s.is_drawing ∧ s.current_measure ≠ none then
      let m := s.current_measure.getD { measure_type := "", points := [], completed := false }
      let m2 := { m with completed := true }
      ({ s with
          is_drawing := false
          measurements := s.measurements ++ [m2]
          current_measure := none },
       [OutEvent.measureAdded m2, OutEvent.previewCleared])
    else (s, [])
  else if s.current_tool = some "polygon" then (s, [])
  else if s.is_drawing = false then (s, [])
  else
    match s.cur_shape with
    | some a =>
        let a2 := { a with completed := true }
        ({ s with
            is_drawing := false
            shapes := s.shapes ++ [a2]
            cur_shape := none },
         [OutEvent.shapeAdded a2, OutEvent.previewCleared])
    | none => ({ s with is_drawing := false }, [])

/-- Pointer events fed to the overlay (left-button press/release). -/
inductive PEvent where
  | press (x y : ℤ)
  | move (x y : ℤ)
  | release
  | dblclick
  deriving DecidableEq, Repr

/-- Dispatch one pointer event. -/
def stepEvent (s : OverlayState) : PEvent → OverlayState × List OutEvent
  | .press x y => mousePressEvent s x y
  | .move x y => mouseMoveEvent s x y
  | .release => mouseReleaseEvent s
  | .dblclick => mouseDoubleClickEvent s

/-- Run a sequence of pointer events, concatenating the emitted signals. -/
def runEvents (s : OverlayState) : List PEvent → OverlayState × List OutEvent
  | [] => (s, [])
  | e :: es =>
      let r1 := stepEvent s e
      let r2 := runEvents r1.1 es
      (r2.1, r1.2 ++ r2.2)

/-- Press or move events only (the "2 clicks + pointer-moves" alphabet). -/
def isPressOrMove : PEvent → Bool
  | .press _ _ => true
  | .move _ _ => true
  | _ => false

/-- Number of pointer-down events in a sequence. -/
def pressCount (es : List PEvent) : ℕ :=
  es.countP fun e => match e with
    | .press _ _ => true
    | _ => false

/-- Commit signals: a completed shape or measurement being published. -/
def isCommitEvent : OutEvent → Bool
  | .shapeAdded _ => true
  | .measureAdded _ => true
  | _ => false

/-- Preview-geometry signals. -/
def isPreviewUpdated : OutEvent → Bool
  | .previewUpdated _ _ => true
  | _ => false

/-- No mouse handler ever modifies the current tool. -/
theorem stepEvent_current_tool (s : OverlayState) (e : PEvent) :
    (stepEvent s e).1.current_tool = s.current_tool := by
  cases e with
  | press x y =>
      simp only [stepEvent, mousePressEvent, handle_measure_press]
      repeat' split <;> try rfl
  | move x y =>
      simp only [stepEvent, mouseMoveEvent]
      repeat' split <;> try rfl
  | release =>
      simp only [stepEvent, mouseReleaseEvent]
      repeat' split <;> try rfl
  | dblclick =>
      simp only [stepEvent, mouseDoubleClickEvent, handle_measure_double_click]
      repeat' split <;> try rfl

/-- A pointer-move never commits anything: the shape and measurement
collections are untouched and only preview/delta signals are emitted. -/
theorem mouseMoveEvent_no_commit (s : OverlayState) (x y : ℤ) :
    (mouseMoveEvent s x y).1.shapes = s.shapes ∧
    (mouseMoveEvent s x y).1.measurements = s.measurements ∧
    ∀ ev ∈ (mouseMoveEvent s x y).2, isCommitEvent ev = false := by
  simp only [mouseMoveEvent]
  repeat' split
  all_goals refine ⟨rfl, rfl, ?_⟩
  all_goals simp [isCommitEvent]

/-- A pointer-down with the Polygon tool only appends the point to the
multi-click buffer and emits a preview. -/
theorem mousePressEvent_polygon (s : OverlayState) (x y : ℤ)
    (h : s.current_tool = some "polygon") :
    mousePressEvent s x y
      = ({ s with multi_points := s.multi_points ++ [(x, y)] },
         [OutEvent.previewUpdated "polygon" (s.multi_points ++ [(x, y)])]) := by
  simp [mousePressEvent, h, is_measure_tool]

/-- With the Polygon tool active, any sequence of presses and moves leaves
the shape and measurement collections untouched and emits no commit
signal. -/
theorem polygon_press_move_no_commit (es : List PEvent) :
    ∀ s : OverlayState, s.current_tool = some "polygon" →
      (∀ e ∈ es, isPressOrMove e = true) →
      (runEvents s es).1.shapes = s.shapes ∧
      (runEvents s es).1.measurements = s.measurements ∧
      ∀ ev ∈ (runEvents s es).2, isCommitEvent ev = false := by
  induction es with
  | nil => intro s _ _; exact ⟨rfl, rfl, by simp [runEvents]⟩
  | cons e es ih =>
      intro s htool hall
      have he : isPressOrMove e = true := hall e (List.mem_cons_self e es)
      have hall' : ∀ e' ∈ es, isPressOrMove e' = true :=
        fun e' h' => hall e' (List.mem_cons_of_mem e h')
      have htool' : (stepEvent s e).1.current_tool = some "polygon" := by
        rw [stepEvent_current_tool]; exact htool
      obtain ⟨h1, h2, h3⟩ := ih (stepEvent s e).1 htool' hall'
      simp only [runEvents]
      cases e with
      | press x y =>
          have hp := mousePressEvent_polygon s x y htool
          simp only [stepEvent] at h1 h2 h3 ⊢
          rw [hp] at h1 h2 h3 ⊢
          refine ⟨by simpa using h1, by simpa using h2, ?_⟩
          intro ev hev
          rcases List.mem_append.1 hev with hev | hev
          · simp only [List.mem_singleton] at hev
            subst hev
            rfl
          · exact h3 ev hev
      | move x y =>
          obtain ⟨m1, m2, m3⟩ := mouseMoveEvent_no_commit s x y
          simp only [stepEvent] at h1 h2 h3 ⊢
          refine ⟨by rw [h1, m1], by rw [h2, m2], ?_⟩
          intro ev hev
          rcases List.mem_append.1 hev with hev | hev
          · exact m3 ev hev
          · exact h3 ev hev
      | release => simp [isPressOrMove] at he
      | dblclick => simp [isPressOrMove] at he

/-- Double-click with the Polygon tool and ≥ 3 buffered points: the
polygon is built from the buffer, closed and completed, appended to the
shape collection; the buffer and tracked mouse position are cleared and
`annotation_added` then `preview_cleared` are emitted. -/
theorem mouseDoubleClickEvent_polygon_complete (s : OverlayState)
    (htool : s.current_tool = some "polygon") (h3 : 3 ≤ s.multi_points.length) :
    mouseDoubleClickEvent s
      = ({ s with
            shapes := s.shapes ++
              [{ kind := "PolygonAnnotation", points := s.multi_points,
                 closed := true, completed := true }]
            multi_points := []
            current_mouse_pos := none },
         [OutEvent.shapeAdded
            { kind := "PolygonAnnotation", points := s.multi_points,
              closed := true, completed := true },
          OutEvent.previewCleared]) := by
  simp [mouseDoubleClickEvent, htool, is_measure_tool, h3]

/-- Double-click with the Polygon tool and < 3 buffered points is a no-op:
same state, no signals. -/
theorem mouseDoubleClickEvent_polygon_noop (s : OverlayState)
    (htool : s.current_tool = some "polygon") (h3 : s.multi_points.length < 3) :
    mouseDoubleClickEvent s = (s, []) := by
  simp [mouseDoubleClickEvent, htool, is_measure_tool]
  omega

/-- C2: Polygon multi-click protocol.  (1) Starting from an empty buffer
with the Polygon tool, a sequence of exactly 2 pointer-downs plus any
number of pointer-moves commits nothing: the shape and measurement
collections are unchanged and no commit signal is emitted.  (2) A
double-click with ≥ 3 buffered points builds the closed, completed polygon
from the buffer, appends it, clears the buffer and emits the commit and
preview-cleared signals.  (3) A double-click with < 3 buffered points
changes nothing and emits nothing. -/
theorem polygon_tool_state_machine :
    (∀ (s : OverlayState) (es : List PEvent),
        s.current_tool = some "polygon" → s.multi_points = [] →
        (∀ e ∈ es, isPressOrMove e = true) → pressCount es = 2 →
        (runEvents s es).1.shapes = s.shapes ∧
        (runEvents s es).1.measurements = s.measurements ∧
        ∀ ev ∈ (runEvents s es).2, isCommitEvent ev = false) ∧
    (∀ s : OverlayState,
        s.current_tool = some "polygon" → 3 ≤ s.multi_points.length →
        mouseDoubleClickEvent s
          = ({ s with
                shapes := s.shapes ++
                  [{ kind := "PolygonAnnotation", points := s.multi_points,
                     closed := true, completed := true }]
                multi_points := []
                current_mouse_pos := none },
             [OutEvent.shapeAdded
                { kind := "PolygonAnnotation", points := s.multi_points,
                  closed := true, completed := true },
              OutEvent.previewCleared])) ∧
    (∀ s : OverlayState,
        s.current_tool = some "polygon" → s.multi_points.length < 3 →
        mouseDoubleClickEvent s = (s, [])) :=
  ⟨fun s es htool _hbuf hall _hcount => polygon_press_move_no_commit es s htool hall,
   mouseDoubleClickEvent_polygon_complete,
   mouseDoubleClickEvent_polygon_noop⟩

/-- C2 witness: the three parts applied at concrete states and the
concrete sequence press (1,1), move (2,2), press (3,3), move (4,4). -/
theorem polygon_tool_state_machine_witness :
    (({ initOverlay with current_tool := some "polygon" } : OverlayState).current_tool
        = some "polygon" ∧
      ({ initOverlay with current_tool := some "polygon" } : OverlayState).multi_points = [] ∧
      (∀ e ∈ [PEvent.press 1 1, PEvent.move 2 2, PEvent.press 3 3, PEvent.move 4 4],
          isPressOrMove e = true) ∧
      pressCount [PEvent.press 1 1, PEvent.move 2 2, PEvent.press 3 3, PEvent.move 4 4] = 2 ∧
      (runEvents { initOverlay with current_tool := some "polygon" }
          [PEvent.press 1 1, PEvent.move 2 2, PEvent.press 3 3, PEvent.move 4 4]).1.shapes
        = ({ initOverlay with current_tool := some "polygon" } : OverlayState).shapes) ∧
    (3 ≤ ([((0 : ℤ), (0 : ℤ)), (4, 0), (0, 3)] : List (ℤ × ℤ)).length ∧
      (mouseDoubleClickEvent
          { initOverlay with
              current_tool := some "polygon"
              multi_points := [(0, 0), (4, 0), (0, 3)] }).1.shapes
        = [{ kind := "PolygonAnnotation", points := [(0, 0), (4, 0), (0, 3)],
             closed := true, completed := true }]) ∧
    (([((5 : ℤ), (5 : ℤ))] : List (ℤ × ℤ)).length < 3 ∧
      mouseDoubleClickEvent
          { initOverlay with current_tool := some "polygon", multi_points := [(5, 5)] }
        = ({ initOverlay with current_tool := some "polygon", multi_points := [(5, 5)] }, [])) := by
  refine ⟨⟨rfl, rfl, by decide, by decide, ?_⟩, ⟨by decide, ?_⟩, ⟨by decide, ?_⟩⟩
  · exact (polygon_tool_state_machine.1 _ _ rfl rfl (by decide) (by decide)).1
  · rw [polygon_tool_state_machine.2.1 _ rfl (by decide)]
    decide
  · exact polygon_tool_state_machine.2.2 _ rfl (by decide)

/-- C1 is false as stated: requesting an unknown tool kind is not
rejected.  Starting from a state whose active tool is "line", `set_tool`
with the unknown kind "bogus" changes the active tool to "bogus" instead
of leaving it unchanged (and its result carries no error indication). -/
theorem set_tool_unknown_kind_changes_tool :
    (set_tool { initOverlay with current_tool := some "line" } (some "bogus")).1.current_tool
        = some "bogus" ∧
    (set_tool { initOverlay with current_tool := some "line" } (some "bogus")).1.current_tool
        ≠ some "line" := by
  decide

/-- C1 (amended): `set_tool` performs no validation of the tool kind.  For
every requested kind — known or unknown — it unconditionally stores exactly
that kind as the active tool, resets the multi-click buffer and tracked
mouse position, leaves the committed shapes and measurements untouched,
and emits only `preview_cleared`; it returns no success/error indication. -/
theorem set_tool_accepts_any_kind :
    ∀ (s : OverlayState) (t : Option String),
      (set_tool s t).1.current_tool = t ∧
      (set_tool s t).1.multi_points = [] ∧
      (set_tool s t).1.current_mouse_pos = none ∧
      (set_tool s t).1.shapes = s.shapes ∧
      (set_tool s t).1.measurements = s.measurements ∧
      (set_tool s t).2 = [OutEvent.previewCleared] :=
  fun _ _ => ⟨rfl, rfl, rfl, rfl, rfl, rfl⟩

/-- C3 is false as stated: a tool switch does not reset the drag state
(`is_drawing` / `current_annotation`), so preview geometry from before the
switch can be re-emitted.  Concrete trace: select "line", press at (1,2)
(the line annotation holds [(1,2),(1,2)]), switch to "rectangle" (which
emits preview-cleared), then move to (5,6): the move re-emits a preview
containing the pre-switch point (1,2). -/
theorem stale_drag_preview_after_tool_switch :
    (mouseMoveEvent
        (set_tool
          (mousePressEvent (set_tool initOverlay (some "line")).1 1 2).1
          (some "rectangle")).1
        5 6).2
      = [OutEvent.previewUpdated "rectangle" [(1, 2), (5, 6)]] ∧
    ((1 : ℤ), (2 : ℤ)) ∈
      ((mousePressEvent (set_tool initOverlay (some "line")).1 1 2).1.cur_shape.getD
        { kind := "", points := [], closed := false, completed := false }).points := by
  decide

/-- C3 (amended, part of the proof): a pointer-move straight after a tool
switch with no drag in progress emits no preview geometry at all. -/
theorem move_after_switch_no_preview (s : OverlayState) (t : Option String) (x y : ℤ)
    (hd : s.is_drawing = false) :
    ∀ ev ∈ (mouseMoveEvent (set_tool s t).1 x y).2, isPreviewUpdated ev = false := by
  intro ev hev
  simp only [set_tool, mouseMoveEvent] at hev
  by_cases hwl : t = some "wl" ∧ ¬s.wl_start_pos = none
  · rw [if_pos hwl] at hev
    simp only [List.mem_singleton] at hev
    subst hev
    rfl
  · rw [if_neg hwl] at hev
    simp only [List.length_nil] at hev
    rw [if_neg (by simp), if_neg (by simp [hd]), if_neg (by simp), if_pos (Or.inl hd)] at hev
    simp at hev

/-- C3 (amended, part of the proof): a double-click straight after a tool
switch is always a no-op, since the buffer was cleared by the switch. -/
theorem dblclick_after_switch_noop (s : OverlayState) (t : Option String) :
    mouseDoubleClickEvent (set_tool s t).1 = ((set_tool s t).1, []) := by
  unfold mouseDoubleClickEvent handle_measure_double_click set_tool
  simp

/-- C3 (amended): switching tools always (for every state and requested
tool) resets the multi-click buffer and tracked mouse position and emits
exactly `preview_cleared`, so no multi-click buffer contents survive the
switch: with no drag in progress the first pointer-move after a switch
emits no preview, and a double-click straight after a switch is always a
no-op.  (The drag state `is_drawing`/`current_annotation` is *not* reset,
which is what refutes the unconditional no-stale-preview claim, see the
counterexample.) -/
theorem tool_switch_clears_multi_click_state :
    (∀ (s : OverlayState) (t : Option String),
        set_tool s t
          = ({ s with current_tool := t, multi_points := [], current_mouse_pos := none },
             [OutEvent.previewCleared])) ∧
    (∀ (s : OverlayState) (t : Option String) (x y : ℤ), s.is_drawing = false →
        ∀ ev ∈ (mouseMoveEvent (set_tool s t).1 x y).2, isPreviewUpdated ev = false) ∧
    (∀ (s : OverlayState) (t : Option String),
        mouseDoubleClickEvent (set_tool s t).1 = ((set_tool s t).1, [])) :=
  ⟨fun _ _ => rfl, move_after_switch_no_preview, dblclick_after_switch_noop⟩

/-- C3 witness: the move-after-switch part applied at the initial state
(no drag in progress), tool switched to "polygon", move to (3,4). -/
theorem tool_switch_clears_multi_click_state_witness :
    initOverlay.is_drawing = false ∧
    ∀ ev ∈ (mouseMoveEvent (set_tool initOverlay (some "polygon")).1 3 4).2,
        isPreviewUpdated ev = false :=
  ⟨rfl, tool_switch_clears_multi_click_state.2.1 initOverlay (some "polygon") 3 4 rfl⟩

/-! ## Unit formatting (`Annotation`/`Measure._format_length`/`_format_area`,
`CoordinateConverter.format_length`/`format_area`)

A Python f-string such as `f"{mm:.2f} mm"` is embedded structurally as the
quantity being printed, the number of decimals requested, and the unit
suffix.  `Annotation._pixel_spacing` and `Measure._pixel_spacing` are
`Option ℚ` (`None` = unset); the code's `if _pixel_spacing:` truthiness
test is false both for `None` and for `0`. -/

/-- The structured content of a formatted measurement string. -/
structure FormattedValue where
  amount : ℚ
  decimals : ℕ
  unit : String
  deriving DecidableEq, Repr

/-- `Annotation._px_to_mm` = `Measure._px_to_mm` (identical bodies):
`pixels * spacing` when the spacing is truthy, else `None`. -/
def px_to_mm (spacing : Option ℚ) (pixels : ℚ) : Option ℚ :=
  match spacing with
  | some s => if s ≠ 0 then some (pixels * s) else none
  | none => none

/-- `Annotation._format_length` = `Measure._format_length`. -/
def format_length (spacing : Option ℚ) (pixels : ℚ) : FormattedValue :=
  match px_to_mm spacing pixels with
  | some mm => { amount := mm, decimals := 2, unit := "mm" }
  | none => { amount := pixels, decimals := 1, unit := "px" }

/-- `Annotation._format_area` = `Measure._format_area`:
`mm² = px² * spacing²`, `cm² = mm² / 100`. -/
def format_area (spacing : Option ℚ) (pixels_sq : ℚ) : FormattedValue :=
  match spacing with
  | some s =>
      if s ≠ 0 then { amount := pixels_sq * s ^ 2 / 100, decimals := 2, unit := "cm²" }
      else { amount := pixels_sq, decimals := 0, unit := "px²" }
  | none => { amount := pixels_sq, decimals := 0, unit := "px²" }

/-- `CoordinateConverter.format_length`: the converter has no unset
state; its `pixel_spacing` defaults to `1.0` and the test is
`pixel_spacing != 1.0`. -/
def conv_format_length (pixel_spacing pixels : ℚ) : FormattedValue :=
  if pixel_spacing ≠ 1 then { amount := pixels * pixel_spacing, decimals := 2, unit := "mm" }
  else { amount := pixels, decimals := 1, unit := "px" }

/-- `CoordinateConverter.format_area`. -/
def conv_format_area (pixel_spacing pixels_sq : ℚ) : FormattedValue :=
  if pixel_spacing ≠ 1 then
    { amount := pixels_sq * pixel_spacing ^ 2 / 100, decimals := 2, unit := "cm²" }
  else { amount := pixels_sq, decimals := 0, unit := "px²" }

/-- C8: unit formatting.  With a (truthy, i.e. non-`None` and nonzero)
pixel spacing set, every length formats as mm with 2 decimals
(`pixels × spacing`) and every area as cm² with 2 decimals
(`pixels² × spacing² / 100`); with no spacing set, lengths format as px
with 1 decimal and areas as px² with 0 decimals.  The converter's
formatter behaves identically, with "unset" meaning its default spacing 1. -/
theorem unit_formatting_spec :
    (∀ s pixels : ℚ, s ≠ 0 →
        format_length (some s) pixels = { amount := pixels * s, decimals := 2, unit := "mm" }) ∧
    (∀ s pxsq : ℚ, s ≠ 0 →
        format_area (some s) pxsq
          = { amount := pxsq * s ^ 2 / 100, decimals := 2, unit := "cm²" }) ∧
    (∀ pixels : ℚ,
        format_length none pixels = { amount := pixels, decimals := 1, unit := "px" }) ∧
    (∀ pxsq : ℚ,
        format_area none pxsq = { amount := pxsq, decimals := 0, unit := "px²" }) ∧
    (∀ s pixels : ℚ, s ≠ 1 →
        conv_format_length s pixels
          = { amount := pixels * s, decimals := 2, unit := "mm" }) ∧
    (∀ pixels : ℚ,
        conv_format_length 1 pixels = { amount := pixels, decimals := 1, unit := "px" }) ∧
    (∀ s pxsq : ℚ, s ≠ 1 →
        conv_format_area s pxsq
          = { amount := pxsq * s ^ 2 / 100, decimals := 2, unit := "cm²" }) ∧
    (∀ pxsq : ℚ,
        conv_format_area 1 pxsq = { amount := pxsq, decimals := 0, unit := "px²" }) := by
  refine ⟨?_, ?_, ?_, ?_, ?_, ?_, ?_, ?_⟩
  · intro s pixels h
    simp [format_length, px_to_mm, h]
  · intro s pxsq h
    simp [format_area, h]
  · intro pixels; rfl
  · intro pxsq; rfl
  · intro s pixels h
    simp [conv_format_length, h]
  · intro pixels
    simp [conv_format_length]
  · intro s pxsq h
    simp [conv_format_area, h]
  · intro pxsq
    simp [conv_format_area]

/-- C8 witness: the formatting rules evaluated at spacing 2 (resp. 3) and
concrete pixel values. -/
theorem unit_formatting_spec_witness :
    ((2 : ℚ) ≠ 0 ∧ format_length (some 2) 3 = { amount := 6, decimals := 2, unit := "mm" }) ∧
    ((2 : ℚ) ≠ 0 ∧ format_area (some 2) 50 = { amount := 2, decimals := 2, unit := "cm²" }) ∧
    ((3 : ℚ) ≠ 1 ∧
      conv_format_length 3 2 = { amount := 6, decimals := 2, unit := "mm" }) ∧
    ((3 : ℚ) ≠ 1 ∧
      conv_format_area 3 100 = { amount := 9, decimals := 2, unit := "cm²" }) := by
  refine ⟨⟨by norm_num, ?_⟩, ⟨by norm_num, ?_⟩, ⟨by norm_num, ?_⟩, ⟨by norm_num, ?_⟩⟩
  · rw [unit_formatting_spec.1 2 3 (by norm_num)]
    norm_num
  · rw [unit_formatting_spec.2.1 2 50 (by norm_num)]
    norm_num
  · rw [unit_formatting_spec.2.2.2.2.1 3 2 (by norm_num)]
    norm_num
  · rw [unit_formatting_spec.2.2.2.2.2.2.1 3 100 (by norm_num)]
    norm_num

/-! ## Hit-testing (`FASTAnnotationManager._point_near_annotation` /
`_point_near_line`, `src/fast_annotations.py`)

Over `ℝ`; the boolean comparisons of the code become `Prop`s.
`point_near_shape` embeds `_point_near_annotation` (dispatch on the
Python class name `type(obj).__name__`); a shape of any other class —
e.g. a `DistanceMeasure` — falls through to the final `return False`. -/

noncomputable section

/-- `RectAnnotation.get_corners`: the 4 corners TL, TR, BR, BL after
min/max normalisation; `[]` below 2 points. -/
def get_corners (points : List (ℝ × ℝ)) : List (ℝ × ℝ) :=
  match points with
  | p1 :: p2 :: _ =>
      let min_x := min p1.1 p2.1
      let max_x := max p1.1 p2.1
      let min_y := min p1.2 p2.2
      let max_y := max p1.2 p2.2
      [(min_x, min_y), (max_x, min_y), (max_x, max_y), (min_x, max_y)]
  | _ => []

/-- `FASTAnnotationManager._point_near_line`: clamped-projection test with
a point-to-point fallback for a zero-length segment. -/
def point_near_line (p1 p2 point : ℝ × ℝ) (tolerance : ℝ) : Prop :=
  let line_len_sq := (p2.1 - p1.1) ^ 2 + (p2.2 - p1.2) ^ 2
  if line_len_sq = 0 then
    Real.sqrt ((point.1 - p1.1) ^ 2 + (point.2 - p1.2) ^ 2) ≤ tolerance
  else
    let t := max 0 (min 1
      (((point.1 - p1.1) * (p2.1 - p1.1) + (point.2 - p1.2) * (p2.2 - p1.2)) / line_len_sq))
    let closest_x := p1.1 + t * (p2.1 - p1.1)
    let closest_y := p1.2 + t * (p2.2 - p1.2)
    Real.sqrt ((point.1 - closest_x) ^ 2 + (point.2 - closest_y) ^ 2) ≤ tolerance

/-- Spec-side: the point-to-segment distance (clamped projection, with the
point-to-point fallback for a zero-length segment). -/
def point_to_segment_distance (p1 p2 point : ℝ × ℝ) : ℝ :=
  let line_len_sq := (p2.1 - p1.1) ^ 2 + (p2.2 - p1.2) ^ 2
  if line_len_sq = 0 then
    Real.sqrt ((point.1 - p1.1) ^ 2 + (point.2 - p1.2) ^ 2)
  else
    let t := max 0 (min 1
      (((point.1 - p1.1) * (p2.1 - p1.1) + (point.2 - p1.2) * (p2.2 - p1.2)) / line_len_sq))
    let closest_x := p1.1 + t * (p2.1 - p1.1)
    let closest_y := p1.2 + t * (p2.2 - p1.2)
    Real.sqrt ((point.1 - closest_x) ^ 2 + (point.2 - closest_y) ^ 2)

/-- `FASTAnnotationManager._point_near_annotation`: dispatch on the class
name; the loops (`for i in range(...): if ...: return True`) become
existentials; anything that matches no branch is `False`. -/
def point_near_shape (ann : Shape ℝ) (px py : ℝ) (tolerance : ℝ) : Prop :=
  if ann.kind = "LineAnnotation" ∧ 2 ≤ ann.points.length then
    point_near_line (ann.points.getD 0 (0, 0)) (ann.points.getD 1 (0, 0)) (px, py) tolerance
  else if ann.kind = "RectAnnotation" ∧ 2 ≤ ann.points.length then
    ∃ i < 4, point_near_line ((get_corners ann.points).getD i (0, 0))
      ((get_corners ann.points).getD ((i + 1) % 4) (0, 0)) (px, py) tolerance
  else if ann.kind = "PolygonAnnotation" ∧ 2 ≤ ann.points.length then
    (∃ i < ann.points.length - 1,
        point_near_line (ann.points.getD i (0, 0)) (ann.points.getD (i + 1) (0, 0))
          (px, py) tolerance) ∨
    (ann.closed = true ∧ 3 ≤ ann.points.length ∧
        point_near_line (ann.points.getLastD (0, 0)) (ann.points.getD 0 (0, 0))
          (px, py) tolerance)
  else False

/-- Spec-side: the claimed segment decomposition — 1 segment for a line,
the 4 normalised-corner edges for a rectangle, the N−1 consecutive edges
plus (for a closed polygon with ≥ 3 points) the closing edge for a
polygon, and nothing for any other shape kind. -/
def shape_segments (ann : Shape ℝ) : List ((ℝ × ℝ) × (ℝ × ℝ)) :=
  if ann.kind = "LineAnnotation" ∧ 2 ≤ ann.points.length then
    [(ann.points.getD 0 (0, 0), ann.points.getD 1 (0, 0))]
  else if ann.kind = "RectAnnotation" ∧ 2 ≤ ann.points.length then
    (get_corners ann.points).zip ((get_corners ann.points).rotate 1)
  else if ann.kind = "PolygonAnnotation" ∧ 2 ≤ ann.points.length then
    ann.points.zip ann.points.tail
      ++ (if ann.closed = true ∧ 3 ≤ ann.points.length
          then [(ann.points.getLastD (0, 0), ann.points.getD 0 (0, 0))] else [])
  else []

end

/-- `_point_near_line` holds iff the point-to-segment distance is within
tolerance. -/
theorem point_near_line_iff (p1 p2 point : ℝ × ℝ) (tolerance : ℝ) :
    point_near_line p1 p2 point tolerance
      ↔ point_to_segment_distance p1 p2 point ≤ tolerance := by
  unfold point_near_line point_to_segment_distance
  dsimp only
  by_cases h : (p2.1 - p1.1) ^ 2 + (p2.2 - p1.2) ^ 2 = 0
  · rw [if_pos h, if_pos h]
  · rw [if_neg h, if_neg h]

/-- Membership in `l.zip l.tail` is indexed access at consecutive
positions. -/
theorem mem_zip_tail (l : List (ℝ × ℝ)) (pq : (ℝ × ℝ) × (ℝ × ℝ)) :
    pq ∈ l.zip l.tail ↔
      ∃ i, i + 1 < l.length ∧ pq = (l.getD i (0, 0), l.getD (i + 1) (0, 0)) := by
  induction l with
  | nil => simp
  | cons a l ih =>
      cases l with
      | nil => simp
      | cons b t =>
          rw [List.tail_cons, List.zip_cons_cons, List.mem_cons]
          rw [List.tail_cons] at ih
          rw [ih]
          constructor
          · rintro (h | ⟨i, hi, hpq⟩)
            · exact ⟨0, by simp, by simpa using h⟩
            · refine ⟨i + 1, ?_, by simpa using hpq⟩
              simpa using Nat.succ_lt_succ hi
          · rintro ⟨i, hi, hpq⟩
            cases i with
            | zero =>
                left
                simpa using hpq
            | succ j =>
                right
                refine ⟨j, ?_, by simpa using hpq⟩
                simp only [List.length_cons] at hi ⊢
                omega

/-- The rectangle loop `for i in range(4)` with `corners[(i+1) % 4]` visits
exactly the four zip-with-rotation edges. -/
theorem rect_corner_edges (c0 c1 c2 c3 : ℝ × ℝ) (P : (ℝ × ℝ) → (ℝ × ℝ) → Prop) :
    (∃ i < 4, P (([c0, c1, c2, c3] : List (ℝ × ℝ)).getD i (0, 0))
        (([c0, c1, c2, c3] : List (ℝ × ℝ)).getD ((i + 1) % 4) (0, 0)))
      ↔ ∃ seg ∈ ([c0, c1, c2, c3] : List (ℝ × ℝ)).zip
          (([c0, c1, c2, c3] : List (ℝ × ℝ)).rotate 1), P seg.1 seg.2 := by
  have hz : ([c0, c1, c2, c3] : List (ℝ × ℝ)).zip
      (([c0, c1, c2, c3] : List (ℝ × ℝ)).rotate 1)
      = [(c0, c1), (c1, c2), (c2, c3), (c3, c0)] := by
    rfl
  rw [hz]
  constructor
  · rintro ⟨i, hi, hP⟩
    interval_cases i
    · exact ⟨(c0, c1), by simp, hP⟩
    · exact ⟨(c1, c2), by simp, hP⟩
    · exact ⟨(c2, c3), by simp, hP⟩
    · exact ⟨(c3, c0), by simp, hP⟩
  · rintro ⟨seg, hseg, hP⟩
    simp only [List.mem_cons, List.not_mem_nil, or_false] at hseg
    rcases hseg with h | h | h | h <;> subst h
    · exact ⟨0, by norm_num, hP⟩
    · exact ⟨1, by norm_num, hP⟩
    · exact ⟨2, by norm_num, hP⟩
    · exact ⟨3, by norm_num, hP⟩

/-- The hit test agrees with the segment decomposition: the point is near
iff some decomposed segment is within tolerance. -/
theorem point_near_shape_iff (ann : Shape ℝ) (px py tolerance : ℝ) :
    point_near_shape ann px py tolerance
      ↔ ∃ seg ∈ shape_segments ann,
          point_to_segment_distance seg.1 seg.2 (px, py) ≤ tolerance := by
  unfold point_near_shape shape_segments
  by_cases h1 : ann.kind = "LineAnnotation" ∧ 2 ≤ ann.points.length
  · rw [if_pos h1, if_pos h1]
    simp only [point_near_line_iff]
    simp
  · rw [if_neg h1, if_neg h1]
    by_cases h2 : ann.kind = "RectAnnotation" ∧ 2 ≤ ann.points.length
    · rw [if_pos h2, if_pos h2]
      obtain ⟨q1, q2, rest, hpts⟩ : ∃ q1 q2 rest, ann.points = q1 :: q2 :: rest := by
        have hl := h2.2
        rcases hp : ann.points with _ | ⟨a, tl⟩
        · rw [hp] at hl
          simp at hl
        · rcases ht : tl with _ | ⟨b, l⟩
          · rw [hp, ht] at hl
            simp at hl
          · exact ⟨a, b, l, rfl⟩

      rw [hpts]
      rw [show get_corners (q1 :: q2 :: rest)
          = [(min q1.1 q2.1, min q1.2 q2.2), (max q1.1 q2.1, min q1.2 q2.2),
             (max q1.1 q2.1, max q1.2 q2.2), (min q1.1 q2.1, max q1.2 q2.2)] from rfl]
      simp only [point_near_line_iff]
      exact rect_corner_edges _ _ _ _
        (fun a b => point_to_segment_distance a b (px, py) ≤ tolerance)
    · rw [if_neg h2, if_neg h2]
      by_cases h3 : ann.kind = "PolygonAnnotation" ∧ 2 ≤ ann.points.length
      · rw [if_pos h3, if_pos h3]
        simp only [point_near_line_iff]
        constructor
        · rintro (⟨i, hi, hP⟩ | ⟨hc, h3len, hP⟩)
          · refine ⟨(ann.points.getD i (0, 0), ann.points.getD (i + 1) (0, 0)),
              List.mem_append.2 (Or.inl ?_), hP⟩
            exact (mem_zip_tail _ _).2 ⟨i, by omega, rfl⟩
          · refine ⟨(ann.points.getLastD (0, 0), ann.points.getD 0 (0, 0)),
              List.mem_append.2 (Or.inr ?_), hP⟩
            rw [if_pos ⟨hc, h3len⟩]
            simp
        · rintro ⟨seg, hseg, hP⟩
          rcases List.mem_append.1 hseg with hseg | hseg
          · obtain ⟨i, hi, heq⟩ := (mem_zip_tail _ _).1 hseg
            subst heq
            exact Or.inl ⟨i, by omega, hP⟩
          · by_cases hc : ann.closed = true ∧ 3 ≤ ann.points.length
            · rw [if_pos hc] at hseg
              simp only [List.mem_singleton] at hseg
              subst hseg
              exact Or.inr ⟨hc.1, hc.2, hP⟩
            · rw [if_neg hc] at hseg
              simp at hseg
      · rw [if_neg h3, if_neg h3]
        simp

/-- The example line shape: a completed `LineAnnotation` from (0,0) to (10,0). -/
noncomputable def lineExampleShape : Shape ℝ :=
  { kind := "LineAnnotation", points := [(0, 0), (10, 0)], closed := false, completed := true }

/-- The clamped projection of (5,0) onto the segment (0,0)–(10,0) is the
point itself: distance 0. -/
theorem dist_midpoint_on_segment :
    point_to_segment_distance (0, 0) (10, 0) (5, 0) = 0 := by
  unfold point_to_segment_distance
  dsimp only
  rw [if_neg (by norm_num)]
  norm_num [min_def, max_def]

/-- The point (5,1) is at distance 1 from the segment (0,0)–(10,0). -/
theorem dist_above_segment :
    point_to_segment_distance (0, 0) (10, 0) (5, 1) = 1 := by
  unfold point_to_segment_distance
  dsimp only
  rw [if_neg (by norm_num)]
  norm_num [min_def, max_def]

/-- `get_corners` always returns 4 corners once 2 points exist. -/
theorem get_corners_length (points : List (ℝ × ℝ)) (h : 2 ≤ points.length) :
    (get_corners points).length = 4 := by
  match points, h with
  | p1 :: p2 :: rest, _ => rfl

/-- C9 (amended): hit testing.  `point_near_shape` holds iff some segment
of the decomposition (1 segment for a `LineAnnotation`, the 4
normalised-corner edges for a `RectAnnotation`, the N−1 consecutive edges
plus — for a closed polygon with ≥ 3 points — the closing edge for a
`PolygonAnnotation`, and no segments for every other shape kind, e.g. a
Distance measure) has point-to-segment distance ≤ tolerance, where the
distance is the clamped projection with a point-to-point fallback for
zero-length segments.  A point on a line's midpoint is near at tolerance
0; a point farther than the tolerance from every segment is not. -/
theorem hit_test_segment_decomposition :
    (∀ (ann : Shape ℝ) (px py tolerance : ℝ),
        point_near_shape ann px py tolerance
          ↔ ∃ seg ∈ shape_segments ann,
              point_to_segment_distance seg.1 seg.2 (px, py) ≤ tolerance) ∧
    (∀ ann : Shape ℝ, ann.kind = "LineAnnotation" → 2 ≤ ann.points.length →
        (shape_segments ann).length = 1) ∧
    (∀ ann : Shape ℝ, ann.kind = "RectAnnotation" → 2 ≤ ann.points.length →
        (shape_segments ann).length = 4) ∧
    (∀ ann : Shape ℝ, ann.kind = "PolygonAnnotation" → ann.closed = true →
        3 ≤ ann.points.length →
        (shape_segments ann).length = (ann.points.length - 1) + 1) ∧
    point_near_shape lineExampleShape 5 0 0 ∧
    ¬ point_near_shape lineExampleShape 5 1 0 := by
  refine ⟨point_near_shape_iff, ?_, ?_, ?_, ?_, ?_⟩
  · intro ann hk h2
    unfold shape_segments
    rw [if_pos ⟨hk, h2⟩]
    rfl
  · intro ann hk h2
    unfold shape_segments
    rw [if_neg (by simp [hk]), if_pos ⟨hk, h2⟩]
    rw [List.length_zip, List.length_rotate, get_corners_length ann.points h2]
    rfl
  · intro ann hk hc h3
    unfold shape_segments
    rw [if_neg (by simp [hk]), if_neg (by simp [hk]), if_pos ⟨hk, by omega⟩]
    rw [List.length_append, List.length_zip, List.length_tail, if_pos ⟨hc, h3⟩]
    simp only [List.length_singleton]
    omega
  · unfold point_near_shape
    rw [if_pos ⟨rfl, by norm_num [lineExampleShape]⟩]
    rw [show lineExampleShape.points.getD 0 (0, 0) = ((0 : ℝ), (0 : ℝ)) from rfl,
      show lineExampleShape.points.getD 1 (0, 0) = ((10 : ℝ), (0 : ℝ)) from rfl]
    rw [point_near_line_iff, dist_midpoint_on_segment]
  · unfold point_near_shape
    rw [if_pos ⟨rfl, by norm_num [lineExampleShape]⟩]
    rw [show lineExampleShape.points.getD 0 (0, 0) = ((0 : ℝ), (0 : ℝ)) from rfl,
      show lineExampleShape.points.getD 1 (0, 0) = ((10 : ℝ), (0 : ℝ)) from rfl]
    rw [point_near_line_iff, dist_above_segment]
    norm_num

/-- C9 is false as stated: the hit tester dispatches only on the three
annotation class names, so a Distance measure is never "near" — here a
`DistanceMeasure` whose single segment passes through the query point
(distance 0 ≤ tolerance 10) is reported not-near. -/
theorem distance_measure_not_hit_tested :
    ¬ point_near_shape
        { kind := "DistanceMeasure", points := [(0, 0), (10, 0)], closed := false,
          completed := true } 5 0 10 ∧
    point_to_segment_distance (0, 0) (10, 0) (5, 0) ≤ 10 := by
  constructor
  · unfold point_near_shape
    rw [if_neg (by simp), if_neg (by simp), if_neg (by simp)]
    exact not_false
  · rw [dist_midpoint_on_segment]
    norm_num

/-- C9 witness: the segment-count parts of `hit_test_segment_decomposition`
discharged at concrete line, rectangle and closed-triangle shapes. -/
theorem hit_test_segment_decomposition_witness :
    (lineExampleShape.kind = "LineAnnotation" ∧ 2 ≤ lineExampleShape.points.length ∧
      (shape_segments lineExampleShape).length = 1) ∧
    ((⟨"RectAnnotation", [(0, 0), (4, 3)], false, true⟩ : Shape ℝ).kind = "RectAnnotation" ∧
      (shape_segments ⟨"RectAnnotation", [(0, 0), (4, 3)], false, true⟩).length = 4) ∧
    ((⟨"PolygonAnnotation", [(0, 0), (4, 0), (0, 3)], true, true⟩ : Shape ℝ).closed = true ∧
      (shape_segments ⟨"PolygonAnnotation", [(0, 0), (4, 0), (0, 3)], true, true⟩).length
        = 3) := by
  refine ⟨⟨rfl, by norm_num [lineExampleShape], ?_⟩, ⟨rfl, ?_⟩, ⟨rfl, ?_⟩⟩
  · exact hit_test_segment_decomposition.2.1 lineExampleShape rfl
      (by norm_num [lineExampleShape])
  · exact hit_test_segment_decomposition.2.2.1 _ rfl (by norm_num)
  · exact hit_test_segment_decomposition.2.2.2.1 _ rfl rfl (by norm_num)

/-! ## Class-level id counters (`Annotation._id_counter`, `Measure._id_counter`)

`Annotation.__init__` runs `Annotation._id_counter += 1; self.id = Annotation._id_counter`
and `Measure.__init__` does the same on `Measure._id_counter`: two
independent process-wide counters.  A session is a sequence of
constructor calls against the pair of counters. -/

/-- The two class-level counters. -/
structure IdCounters where
  ann_id_counter : ℕ
  measure_id_counter : ℕ
  deriving DecidableEq, Repr

/-- A constructor call: some `Annotation` subclass or some `Measure`
subclass (every subclass funnels through the one base `__init__`). -/
inductive CtorCall where
  | annCtor
  | measureCtor
  deriving DecidableEq, Repr

/-- One constructor call: bump the family's counter, return the new id. -/
def constructIds : IdCounters → CtorCall → IdCounters × ℕ
  | st, .annCtor =>
      ({ st with ann_id_counter := st.ann_id_counter + 1 }, st.ann_id_counter + 1)
  | st, .measureCtor =>
      ({ st with measure_id_counter := st.measure_id_counter + 1 }, st.measure_id_counter + 1)

/-- Run a session of constructor calls, recording each call's id. -/
def sessionIds : IdCounters → List CtorCall → List (CtorCall × ℕ)
  | _, [] => []
  | st, c :: cs =>
      let r := constructIds st c
      (c, r.2) :: sessionIds r.1 cs

/-- The ids handed to `Annotation` constructions, in order. -/
def annIds (st : IdCounters) (cs : List CtorCall) : List ℕ :=
  (sessionIds st cs).filterMap fun ci =>
    match ci.1 with
    | .annCtor => some ci.2
    | .measureCtor => none

/-- The ids handed to `Measure` constructions, in order. -/
def measureIds (st : IdCounters) (cs : List CtorCall) : List ℕ :=
  (sessionIds st cs).filterMap fun ci =>
    match ci.1 with
    | .annCtor => none
    | .measureCtor => some ci.2

/-- Number of `Annotation` constructions in a session. -/
def annCount (cs : List CtorCall) : ℕ :=
  cs.countP fun c => match c with
    | .annCtor => true
    | .measureCtor => false

/-- Number of `Measure` constructions in a session. -/
def measureCount (cs : List CtorCall) : ℕ :=
  cs.countP fun c => match c with
    | .annCtor => false
    | .measureCtor => true

/-- The annotation ids of a session are consecutive from the counter. -/
theorem annIds_eq (cs : List CtorCall) :
    ∀ st : IdCounters,
      annIds st cs = (List.range (annCount cs)).map (fun i => st.ann_id_counter + 1 + i) := by
  induction cs with
  | nil => intro st; simp [annIds, sessionIds, annCount]
  | cons c cs ih =>
      intro st
      cases c with
      | annCtor =>
          simp only [annIds, sessionIds, constructIds, List.filterMap_cons, annCount,
            List.countP_cons] at *
          rw [ih]
          simp only [if_true, List.range_succ_eq_map, List.map_cons, List.map_map,
            List.cons.injEq]
          refine ⟨trivial, ?_⟩
          apply List.map_congr_left
          intro a _
          simp only [Function.comp_apply]
          omega
      | measureCtor =>
          simp only [annIds, sessionIds, constructIds, List.filterMap_cons, annCount,
            List.countP_cons] at *
          rw [ih]
          simp

/-- The measure ids of a session are consecutive from the counter. -/
theorem measureIds_eq (cs : List CtorCall) :
    ∀ st : IdCounters,
      measureIds st cs
        = (List.range (measureCount cs)).map (fun i => st.measure_id_counter + 1 + i) := by
  induction cs with
  | nil => intro st; simp [measureIds, sessionIds, measureCount]
  | cons c cs ih =>
      intro st
      cases c with
      | measureCtor =>
          simp only [measureIds, sessionIds, constructIds, List.filterMap_cons, measureCount,
            List.countP_cons] at *
          rw [ih]
          simp only [if_true, List.range_succ_eq_map, List.map_cons, List.map_map,
            List.cons.injEq]
          refine ⟨trivial, ?_⟩
          apply List.map_congr_left
          intro a _
          simp only [Function.comp_apply]
          omega
      | annCtor =>
          simp only [measureIds, sessionIds, constructIds, List.filterMap_cons, measureCount,
            List.countP_cons] at *
          rw [ih]
          simp

/-- C10: id counters.  Constructing an `Annotation` bumps only the
annotation counter and hands out exactly the previous value + 1 (likewise
for `Measure`), so within each family the ids handed out in a session are
consecutive — hence strictly increasing — values of that family's counter;
and the two families are independent, so an `Annotation` and a `Measure`
of the same session can carry the same id value (both get id 1 in a fresh
session). -/
theorem id_counters_spec :
    (∀ st : IdCounters,
        (constructIds st CtorCall.annCtor).2 = st.ann_id_counter + 1 ∧
        (constructIds st CtorCall.annCtor).1.ann_id_counter = st.ann_id_counter + 1 ∧
        (constructIds st CtorCall.annCtor).1.measure_id_counter = st.measure_id_counter ∧
        (constructIds st CtorCall.measureCtor).2 = st.measure_id_counter + 1 ∧
        (constructIds st CtorCall.measureCtor).1.measure_id_counter
          = st.measure_id_counter + 1 ∧
        (constructIds st CtorCall.measureCtor).1.ann_id_counter = st.ann_id_counter) ∧
    (∀ (st : IdCounters) (cs : List CtorCall),
        annIds st cs = (List.range (annCount cs)).map (fun i => st.ann_id_counter + 1 + i)) ∧
    (∀ (st : IdCounters) (cs : List CtorCall),
        measureIds st cs
          = (List.range (measureCount cs)).map (fun i => st.measure_id_counter + 1 + i)) ∧
    (∀ (st : IdCounters) (cs : List CtorCall), (annIds st cs).Pairwise (· < ·)) ∧
    (∀ (st : IdCounters) (cs : List CtorCall), (measureIds st cs).Pairwise (· < ·)) ∧
    (annIds ⟨0, 0⟩ [CtorCall.annCtor, CtorCall.measureCtor] = [1] ∧
      measureIds ⟨0, 0⟩ [CtorCall.annCtor, CtorCall.measureCtor] = [1]) := by
  refine ⟨fun st => ⟨rfl, rfl, rfl, rfl, rfl, rfl⟩,
    fun st cs => annIds_eq cs st, fun st cs => measureIds_eq cs st, ?_, ?_, by decide, by decide⟩
  · intro st cs
    rw [annIds_eq cs st]
    refine List.Pairwise.map _ ?_ (List.pairwise_lt_range (annCount cs))
    intro a b hab
    omega
  · intro st cs
    rw [measureIds_eq cs st]
    refine List.Pairwise.map _ ?_ (List.pairwise_lt_range (measureCount cs))
    intro a b hab
    omega

end UltrasoundApp
